import Mathlib

/-!
Verification of the harvesting-orchestration core of GreenDataHarvester.

This file gives a shallow embedding, in Lean, of the components the
specification's claims speak about:

* `RateLimiter.checkLimit` and `RetryHandler.execute`
  (src/utils/rateLimiter.js),
* the `DataTransformer` rule pipeline (src/sources/insee/client.js),
* `ConfigManager` loading, environment-variable interpolation and
  validation (the config-manager module),
* `HealthManager.checkSourceHealth` and its persistence of check
  records (src/health/HealthManager.js),
* `SourceManager.harvestAll` / `harvestSource` (src/sources/index.js).

JavaScript runtime values are modelled by the inductive type `Value`;
host primitives the code calls into (HTTP, `Date`, `parseFloat`,
`JSON.parse`) are explicit parameters, so every theorem quantifies over
the host behaviour.  Asynchronous suspensions (`await`-ed timers) are
modelled by returning the number of milliseconds the caller would
sleep; exceptions are modelled with `Except`.
-/

set_option autoImplicit false

namespace GDH

/-- A JavaScript runtime value (`undefined` is represented by `Option`
at the use sites: a missing field / missing argument is `none`). -/
inductive Value : Type where
  | vNull : Value
  | vStr : String → Value
  | vNum : Rat → Value
  | vBool : Bool → Value
  | vArr : List Value → Value
  | vObj : List (String × Value) → Value
deriving Repr

namespace Value

/-- JavaScript truthiness of a (defined) value. -/
def truthy : Value → Bool
  | vNull => false
  | vStr s => s ≠ ""
  | vNum q => q ≠ 0
  | vBool b => b
  | vArr _ => true
  | vObj _ => true

/-- Property read `v[k]` on a value that is known to be defined and
non-`null` (never throws): objects look the key up, everything else
yields `undefined` (`none`). -/
def getField : Value → String → Option Value
  | vObj fs, k => fs.lookup k
  | _, _ => none

/-- Truthiness of `v[k]` where `v` itself may be `undefined`. -/
def fieldTruthy (v : Option Value) (k : String) : Bool :=
  match v with
  | some w => (match w.getField k with
      | some f => truthy f
      | none => false)
  | none => false

/-- Truthiness of a possibly-`undefined` value. -/
def optTruthy : Option Value → Bool
  | some v => truthy v
  | none => false

/-- Property read `v[k]` with JavaScript throwing semantics: reading a
property of `undefined` or `null` raises a `TypeError`. -/
def jsGet : Option Value → String → Except String (Option Value)
  | none, k => .error ("TypeError: cannot read properties of undefined (reading " ++ k ++ ")")
  | some vNull, k => .error ("TypeError: cannot read properties of null (reading " ++ k ++ ")")
  | some v, k => .ok (v.getField k)

/-- The object spread `{ ...obj, [k]: v }`: an existing key keeps its
position and gets the new value, a new key is appended. -/
def setField (v : Value) (k : String) (x : Value) : Value :=
  match v with
  | vObj fs =>
      match fs.lookup k with
      | none => vObj (fs ++ [(k, x)])
      | some _ => vObj (fs.map (fun p => if p.1 = k then (p.1, x) else p))
  | w => w

end Value

/-! ## RateLimiter (src/utils/rateLimiter.js, lines 1–32) -/

namespace RateLimiter

/-- The mutable state of one `RateLimiter` instance: the per-minute cap
and the recorded call timestamps (milliseconds), oldest first. -/
structure State where
  requestsPerMinute : Nat
  requests : List Nat
deriving DecidableEq, Repr

/-- Constructor defaulting `config.requestsPerMinute || 30`
(a missing or zero — falsy — configured value falls back to 30). -/
def mk (requestsPerMinute : Option Nat) : State :=
  { requestsPerMinute :=
      match requestsPerMinute with
      | some n => if n = 0 then 30 else n
      | none => 30,
    requests := [] }

/-- Embeds `checkLimit`, with `Date.now()` passed in as `now`.  Returns the
number of milliseconds the caller suspends (`0` when under the cap)
together with the state after the call is recorded.  Mirrors the
source: timestamps older than 60 000 ms are filtered out; if the
remaining count reaches the cap the caller waits until the oldest
kept timestamp leaves the window; the entry timestamp `now` (taken
before the wait) is then pushed. -/
def checkLimit (now : Nat) (st : State) : Nat × State :=
  let kept := st.requests.filter (fun r => now - r < 60000)
  let waitTime :=
    if st.requestsPerMinute ≤ kept.length then
      match kept with
      | oldest :: _ => 60000 - (now - oldest)
      | [] => 0
    else 0
  (waitTime, { st with requests := kept ++ [now] })

end RateLimiter

/-! ## RetryHandler (src/utils/rateLimiter.js, lines 34–77) -/

/-- A thrown JavaScript error as `RetryHandler` inspects it:
`error.response?.status` is `some s` when the error carries an HTTP
response with status `s`, `none` for network-style errors without a
response.  `undef` is the `undefined` thrown by the degenerate
`throw lastError` after a loop that never ran. -/
inductive JsError : Type where
  | undef : JsError
  | err : Option Nat → String → JsError
deriving DecidableEq, Repr

namespace RetryHandler

/-- Configuration of one `RetryHandler` instance (after the
constructor's defaulting). -/
structure Config where
  maxAttempts : Nat
  delayMs : Nat
  backoffMultiplier : Nat
deriving DecidableEq, Repr

/-- Embeds `error.response?.status >= 400 && < 500 && !== 429`: a 4xx other
than 429 is not retried.  Comparisons against a missing status are
false in JavaScript, so such errors are retryable. -/
def nonRetryable : JsError → Bool
  | .err (some s) _ => 400 ≤ s && s < 500 && s ≠ 429
  | _ => false

/-- What one call of `execute` did: the propagated result, how many
times the operation was invoked, and the backoff delays slept between
attempts, in order. -/
structure RunTrace (α : Type) where
  result : Except JsError α
  invocations : Nat
  delays : List Nat
deriving Repr

/-- The `for` loop of `execute`.  `op k` is the outcome of the `k`-th
invocation of the wrapped operation; `attempt` is the loop counter
(starting at 1) and `fuel` the number of attempts still allowed, so
the loop body runs with `fuel ≥ 1` and `fuel = 1` means
`attempt === maxAttempts`.  `fuel = 0` is the fall-through
`throw lastError`. -/
def executeGo {α : Type} (cfg : Config) (op : Nat → Except JsError α) :
    Nat → Nat → JsError → RunTrace α
  | _, 0, lastError => ⟨.error lastError, 0, []⟩
  | attempt, fuel + 1, _ =>
      match op attempt with
      | .ok v => ⟨.ok v, 1, []⟩
      | .error e =>
          if nonRetryable e then ⟨.error e, 1, []⟩
          else if fuel = 0 then ⟨.error e, 1, []⟩
          else
            let d := cfg.delayMs * cfg.backoffMultiplier ^ (attempt - 1)
            let t := executeGo cfg op (attempt + 1) fuel e
            ⟨t.result, t.invocations + 1, d :: t.delays⟩

/-- Embeds `RetryHandler.execute(operation)`. -/
def execute {α : Type} (cfg : Config) (op : Nat → Except JsError α) : RunTrace α :=
  executeGo cfg op 1 cfg.maxAttempts .undef

end RetryHandler

/-! ## DataTransformer (src/sources/insee/client.js, transformer part) -/

namespace DataTransformer

open Value

/-- Host primitives the transformer calls into.  `dateParse` is
`new Date(value).getTime()` (`none` when the result is `NaN`),
`dateToISO` is `toISOString()`, `dateToLocaleFR` is
`toLocaleDateString('fr-FR')`, `parseFloat` is the global
`parseFloat` (`none` for `NaN`), `jsonParse` is `JSON.parse`
(`none` when it throws) and `numToString` is the number-to-string
coercion. -/
structure JsHost where
  dateParse : Value → Option Int
  dateToISO : Int → String
  dateToLocaleFR : Int → String
  parseFloat : Value → Option Rat
  jsonParse : String → Option Value
  numToString : Rat → String

/-- The JavaScript `String(v)` coercion.  Arrays join their elements'
coercions with commas (`null` elements become the empty string via
`vNull`'s own case only at top level; the nested behaviour of
`Array.prototype.toString` is approximated by the same coercion). -/
def jsToString (host : JsHost) : Value → String
  | .vNull => "null"
  | .vStr s => s
  | .vNum q => host.numToString q
  | .vBool b => cond b "true" "false"
  | .vObj _ => "[object Object]"
  | .vArr xs => String.intercalate "," (jsToStringList host xs)
where jsToStringList (host : JsHost) : List Value → List String
  | [] => []
  | x :: xs => jsToString host x :: jsToStringList host xs

/-- One `TransformRule` as destructured by `applyRuleToObject`:
`{ field, type, format, mapping }`.  A missing/falsy `field` is the
empty string; an unrecognized `type` behaves identically to any other
unmatched value, so it is kept as a plain string. -/
structure Rule where
  field : String
  type : String
  format : Option Value := none
  mapping : Option Value := none

/-- Embeds `transformDate(value, format = 'YYYY-MM-DD')`: an unparsable date
throws (`Except.error`), otherwise the timestamp is reformatted
according to `format`. -/
def transformDate (host : JsHost) (value : Value) (format : Option Value) :
    Except String Value :=
  if ¬ value.truthy then .ok value
  else
    match host.dateParse value with
    | none => .error ("Date invalide: " ++ jsToString host value)
    | some t =>
        match (match format with | none => Value.vStr "YYYY-MM-DD" | some f => f) with
        | .vStr "YYYY-MM-DD" => .ok (.vStr (((host.dateToISO t).splitOn "T").headD ""))
        | .vStr "DD/MM/YYYY" => .ok (.vStr (host.dateToLocaleFR t))
        | .vStr "timestamp" => .ok (.vNum (t : Rat))
        | _ => .ok (.vStr (host.dateToISO t))

/-- Embeds `transformEnum(value, mapping)`: `if (!mapping || !mapping[value])
return value; return mapping[value];` — note the lookup result is
used only when truthy. -/
def transformEnum (host : JsHost) (value : Value) (mapping : Option Value) : Value :=
  match mapping with
  | none => value
  | some m =>
      if ¬ m.truthy then value
      else
        match m.getField (jsToString host value) with
        | some mv => if mv.truthy then mv else value
        | none => value

/-- Embeds `transformNumber`: permissive float parse, non-numeric input passes
through unchanged. -/
def transformNumber (host : JsHost) (value : Value) : Value :=
  match host.parseFloat value with
  | some q => .vNum q
  | none => value

/-- Embeds `transformBoolean`. -/
def transformBoolean (value : Value) : Value :=
  match value with
  | .vBool b => .vBool b
  | .vStr s => .vBool (["true", "1", "yes", "oui"].contains s.toLower)
  | v => .vBool v.truthy

/-- Embeds `transformString`: coerce to the text representation. -/
def transformString (host : JsHost) (value : Value) : Value :=
  .vStr (jsToString host value)

/-- Embeds `transformArray`: arrays pass through, strings are JSON-parsed and
otherwise split on commas and trimmed, any other value is wrapped. -/
def transformArray (host : JsHost) (value : Value) : Value :=
  match value with
  | .vArr xs => .vArr xs
  | .vStr s =>
      (match host.jsonParse s with
       | some v => v
       | none => .vArr ((s.splitOn ",").map (fun part => .vStr part.trim)))
  | v => .vArr [v]

/-- The `switch (type)` inside `applyRuleToObject`'s `try` block: the
computation of `transformedValue` from the current field value.  Only
the date case can throw; an unknown type logs a warning and keeps the
value. -/
def ruleTransform (host : JsHost) (value : Value) (rule : Rule) : Except String Value :=
  match rule.type with
  | "date" => transformDate host value rule.format
  | "enum" => .ok (transformEnum host value rule.mapping)
  | "number" => .ok (transformNumber host value)
  | "boolean" => .ok (transformBoolean value)
  | "string" => .ok (transformString host value)
  | "array" => .ok (transformArray host value)
  | _ => .ok value

/-- Embeds `applyRuleToObject(obj, rule)`: a falsy object, a falsy `field`
name or an absent/falsy field value is a no-op; a throwing transform
is caught and the original object returned; otherwise the field is
replaced by the transformed value. -/
def applyRuleToObject (host : JsHost) (obj : Value) (rule : Rule) : Value :=
  if ¬ obj.truthy ∨ rule.field = "" then obj
  else
    match obj.getField rule.field with
    | none => obj
    | some value =>
        if ¬ value.truthy then obj
        else
          match ruleTransform host value rule with
          | .ok v => obj.setField rule.field v
          | .error _ => obj

/-- Embeds `applyRule(data, rule)`: arrays are mapped element-wise. -/
def applyRule (host : JsHost) (data : Value) (rule : Rule) : Value :=
  match data with
  | .vArr xs => .vArr (xs.map (fun item => applyRuleToObject host item rule))
  | d => applyRuleToObject host d rule

/-- Embeds `transform(data, rules)`: the ordered rules are folded over the
data (the source's shallow copy is the identity in a pure model). -/
def transform (host : JsHost) (data : Value) (rules : List Rule) : Value :=
  if rules.isEmpty then data
  else rules.foldl (fun d r => applyRule host d r) data

end DataTransformer

/-! ## ConfigManager (config-manager module) -/

namespace ConfigManager

open Value

/-- The process environment, `process.env`. -/
def Env : Type := String → Option String

/-- Splits a character list at the first `'}'`: returns the characters
before it and the remainder after it.  This is how the regular
expression `\$\{([^}]+)\}` delimits a placeholder body: `[^}]` cannot
cross a closing brace, so the capture always ends at the first
`'}'`. -/
def splitAtBrace : List Char → Option (List Char × List Char)
  | [] => none
  | c :: rest =>
      if c = '}' then some ([], rest)
      else (splitAtBrace rest).map (fun p => (c :: p.1, p.2))

/-- The global replace of `/\$\{([^}]+)\}/g`: each occurrence of a
placeholder with a non-empty body is replaced by the environment
variable's value, or kept literally when the variable is unset
(`process.env[envVar] || match`, so a variable set to the empty
string is also kept literally).  The `fuel` argument strictly bounds
the number of scanning steps; callers pass the string length plus
one, which is always sufficient because every step consumes at least
one character. -/
def interpGo (env : Env) : Nat → List Char → List Char
  | 0, cs => cs
  | _ + 1, [] => []
  | fuel + 1, '$' :: '{' :: rest =>
      (match splitAtBrace rest with
       | some (c :: cs, remainder) =>
           (match env (String.mk (c :: cs)) with
            | some v => if v = "" then '$' :: '{' :: ((c :: cs) ++ ['}']) else v.data
            | none => '$' :: '{' :: ((c :: cs) ++ ['}'])) ++ interpGo env fuel remainder
       | _ => '$' :: interpGo env fuel ('{' :: rest))
  | fuel + 1, c :: rest => c :: interpGo env fuel rest

/-- Environment-variable interpolation of one string. -/
def interpolate (env : Env) (s : String) : String :=
  String.mk (interpGo env (s.data.length + 1) s.data)

/-- Embeds `replaceEnvVars(obj)`: strings are interpolated, arrays and objects
are traversed recursively (values only — object keys are left alone),
anything else is returned as is. -/
def replaceEnvVars (env : Env) : Value → Value
  | .vStr s => .vStr (interpolate env s)
  | .vArr xs => .vArr (replaceEnvVarsList env xs)
  | .vObj fs => .vObj (replaceEnvVarsFields env fs)
  | v => v
where
  replaceEnvVarsList (env : Env) : List Value → List Value
    | [] => []
    | x :: xs => replaceEnvVars env x :: replaceEnvVarsList env xs
  replaceEnvVarsFields (env : Env) : List (String × Value) → List (String × Value)
    | [] => []
    | (k, x) :: fs => (k, replaceEnvVars env x) :: replaceEnvVarsFields env fs

/-- What `fs.readFile` + `JSON.parse` find for one per-source document:
the file may be absent, present but unparsable, or parse to a
value. -/
inductive DocFile : Type where
  | missing : DocFile
  | malformed : DocFile
  | parsed : Value → DocFile

/-- One source's configuration directory: the five optional
documents. -/
structure SourceDir where
  connection : DocFile := .missing
  persistence : DocFile := .missing
  schedule : DocFile := .missing
  transform : DocFile := .missing
  health : DocFile := .missing

/-- Embeds `readFile` + `JSON.parse` for one document: a missing file and a
malformed file both throw. -/
def readDoc : DocFile → Except String Value
  | .missing => .error "ENOENT: no such file or directory"
  | .malformed => .error "SyntaxError: Unexpected token in JSON"
  | .parsed v => .ok v

/-- One `try { ... } catch { logger.warn(...) }` block of
`loadSourceConfig`: any failure reading or parsing the document is
logged and leaves the field `null`. -/
def loadDocField (f : DocFile) : Option Value :=
  match readDoc f with
  | .ok v => some v
  | .error _ => none

/-- A loaded `SourceConfig`.  `id`, `name` and `type` are `Option`s so
that objects lacking them are representable (the loader always sets
all three to the directory name). -/
structure SourceCfg where
  id : Option String := none
  name : Option String := none
  type : Option String := none
  connection : Option Value := none
  persistence : Option Value := none
  schedule : Option Value := none
  transform : Option Value := none
  health : Option Value := none

/-- Embeds `loadSourceConfig(sourceName)`: each of the five documents is
attempted independently inside its own `try`/`catch`; only the
connection document is passed through `replaceEnvVars`.  The outer
`try` rethrows, but no statement in the body can throw (every load is
caught), which the `Except` result type makes explicit: the function
always returns `.ok`. -/
def loadSourceConfig (env : Env) (sourceName : String) (dir : SourceDir) :
    Except String SourceCfg :=
  .ok
    { id := some sourceName,
      name := some sourceName,
      type := some sourceName,
      connection := (loadDocField dir.connection).map (replaceEnvVars env),
      persistence := loadDocField dir.persistence,
      schedule := loadDocField dir.schedule,
      transform := loadDocField dir.transform,
      health := loadDocField dir.health }

/-- Embeds `loadSourceConfigs()`: every directory entry except
`passport-strategies` is loaded in order (non-directories are not part
of the model's listing). -/
def loadSourceConfigs (env : Env) (items : List (String × SourceDir)) :
    Except String (List (String × SourceCfg)) :=
  (items.filter (fun p => p.1 ≠ "passport-strategies")).foldr
    (fun p acc =>
      match loadSourceConfig env p.1 p.2 with
      | .ok cfg => acc.map (fun rest => (p.1, cfg) :: rest)
      | .error e => .error e)
    (.ok [])

/-- Embeds `loadGlobalConfig()`: a missing or malformed global document is
fatal (the `catch` rethrows); on success the parsed value is
interpolated. -/
def loadGlobalConfig (env : Env) (doc : DocFile) : Except String Value :=
  match readDoc doc with
  | .ok v => .ok (replaceEnvVars env v)
  | .error e => .error e

/-- The `errors` list built by `validateSourceConfig`: only the
connection (presence, then `baseUrl`) and persistence (presence, then
`strategies`) blocks are inspected. -/
def validationErrors (cfg : SourceCfg) : List String :=
  (if ¬ optTruthy cfg.connection then ["Connection configuration is required"]
   else if ¬ fieldTruthy cfg.connection "baseUrl" then ["Connection baseUrl is required"]
   else [])
  ++
  (if ¬ optTruthy cfg.persistence then ["Persistence configuration is required"]
   else if ¬ fieldTruthy cfg.persistence "strategies" then ["Persistence strategies are required"]
   else [])

/-- Embeds `validateSourceConfig(sourceId)`: an unknown id throws; otherwise
all collected errors are joined into one message, and validation
succeeds exactly when the list is empty. -/
def validateSourceConfig (sourceId : String) (cfg : Option SourceCfg) :
    Except String Bool :=
  match cfg with
  | none => .error ("Source configuration not found: " ++ sourceId)
  | some c =>
      let errors := validationErrors c
      if errors.length > 0 then
        .error ("Configuration validation failed for " ++ sourceId ++ ": "
          ++ String.intercalate ", " errors)
      else .ok true

end ConfigManager

/-! ## HealthManager (src/health/HealthManager.js) -/

namespace HealthManager

open Value

/-- A display coercion for template literals in messages (JavaScript's
number formatting is approximated by `Rat`'s textual form; no claim
inspects these message strings beyond equality on concrete runs). -/
def display : Value → String
  | .vNull => "null"
  | .vStr s => s
  | .vNum q => toString q
  | .vBool b => cond b "true" "false"
  | .vObj _ => "[object Object]"
  | .vArr xs => String.intercalate "," (displayList xs)
where displayList : List Value → List String
  | [] => []
  | x :: xs => display x :: displayList xs

/-- An HTTP response as the probes inspect it. -/
structure HttpResponse where
  status : Nat
  data : Option Value := none

/-- The host behaviour a probe runs against.  `clientInit` is the
outcome of `new InseeClient(sourceConfig.connection)` (its property
reads on the connection descriptor can throw); `http` performs the
request given the `baseUrl` field, the endpoint's `url` field, and
the already-defaulted method and timeout values. -/
structure ProbeHost where
  clientInit : Except String Unit := .ok ()
  http : Option Value → Option Value → Value → Value → Except String HttpResponse

/-- Embeds `x || default` on a possibly-missing field value. -/
def orDefault (v : Option Value) (d : Value) : Value :=
  match v with
  | some w => if w.truthy then w else d
  | none => d

/-- Embeds `x || null` on a possibly-missing field value. -/
def orNull (v : Option Value) : Option Value :=
  match v with
  | some w => if w.truthy then some w else none
  | none => none

/-- Embeds `x || null` on a possibly-missing string. -/
def orNullStr (s : Option String) : Option String :=
  match s with
  | some m => if m = "" then none else some m
  | none => none

/-- Embeds `extractDataSample(data, maxSize)`: first `maxSize` array elements,
or first `maxSize` object entries, other values unchanged (the inner
`try`/`catch` cannot fire in the pure model). -/
def extractDataSample (data : Value) (maxSize : Nat) : Value :=
  match data with
  | .vArr xs => .vArr (xs.take maxSize)
  | .vObj fs => .vObj (fs.take maxSize)
  | v => v

/-- What a per-source-type probe reports back to
`checkSourceHealth`. -/
structure ProbeResult where
  isHealthy : Bool
  status : String
  message : String
  error : Option String := none
  dataSample : Option Value := none

/-- The `no_endpoint_config` early return shared by both probes. -/
def noEndpointResult : ProbeResult :=
  { isHealthy := false, status := "no_endpoint_config",
    message := "No endpoint configuration found for health check" }

/-- The `connection_error` result built by each probe's `catch`. -/
def connectionErrorResult (msg : String) : ProbeResult :=
  { isHealthy := false, status := "connection_error",
    message := "Failed to connect to source", error := some msg }

/-- Embeds `checkGenericHealth`: looks the endpoint up under the source id
(a missing or `null` `endpoints` object makes the lookup itself
throw, which the `catch` turns into `connection_error`), builds the
request from `connection.baseUrl` (throwing on a `null`/missing
connection), classifies the response status against
`expectedStatus`, and attaches a bounded data sample on success. -/
def checkGenericHealth (host : ProbeHost) (sourceId : String)
    (connection : Option Value) (healthCfg : Value) (maxDataSize : Nat) : ProbeResult :=
  let body : Except String ProbeResult := do
    let eps ← jsGet (some healthCfg) "endpoints"
    let epOpt ← jsGet eps sourceId
    match (match epOpt with
           | some e => if e.truthy then some e else none
           | none => none) with
    | none => pure noEndpointResult
    | some ep => do
        let baseUrl ← jsGet connection "baseUrl"
        let method := orDefault (ep.getField "method") (.vStr "GET")
        let timeout := orDefault (ep.getField "timeout") (.vNum 10000)
        let resp ← host.http baseUrl (ep.getField "url") method timeout
        let expectedMatches : Bool :=
          match ep.getField "expectedStatus" with
          | some (.vNum q) => q = (resp.status : Rat)
          | _ => false
        if expectedMatches then
          pure { isHealthy := true, status := "healthy",
                 message := "Source is responding correctly",
                 dataSample :=
                   match resp.data with
                   | some d => if d.truthy && decide (0 < maxDataSize)
                       then some (extractDataSample d maxDataSize) else none
                   | none => none }
        else
          pure { isHealthy := false, status := "unexpected_status",
                 message := "Expected status "
                   ++ (match ep.getField "expectedStatus" with
                       | some v => display v
                       | none => "undefined")
                   ++ ", got " ++ toString resp.status,
                 error := some ("HTTP " ++ toString resp.status) }
  match body with
  | .ok r => r
  | .error msg => connectionErrorResult msg

/-- Embeds `checkInseeHealth`: constructs an `InseeClient` (whose constructor
may throw on a malformed connection descriptor), looks the endpoint
up under the second dash-separated component of the source id
(JavaScript turns an out-of-range index into the property key
`"undefined"`), and then calls `client.makeRequest` — a method the
`InseeClient` class does not define, so a truthy endpoint
configuration always ends in the `TypeError` below, which the `catch`
reports as `connection_error`. -/
def checkInseeHealth (host : ProbeHost) (sourceId : String)
    (healthCfg : Value) : ProbeResult :=
  let body : Except String ProbeResult := do
    let _ ← host.clientInit
    let eps ← jsGet (some healthCfg) "endpoints"
    let key := (sourceId.splitOn "-").getD 1 "undefined"
    let epOpt ← jsGet eps key
    match (match epOpt with
           | some e => if e.truthy then some e else none
           | none => none) with
    | none => pure noEndpointResult
    | some _ => throw "TypeError: client.makeRequest is not a function"
  match body with
  | .ok r => r
  | .error msg => connectionErrorResult msg

/-- The `switch (sourceConfig.type)` probe dispatch of
`checkSourceHealth`. -/
def dispatchProbe (host : ProbeHost) (sourceId : String)
    (cfg : ConfigManager.SourceCfg) (healthCfg : Value) (maxDataSize : Nat) : ProbeResult :=
  match cfg.type with
  | some "insee" => checkInseeHealth host sourceId healthCfg
  | _ => checkGenericHealth host sourceId cfg.connection healthCfg maxDataSize

/-- A `HealthCheckRecord` / returned status object.  Fields the
corresponding code path does not set are `none`. -/
structure HealthStatus where
  sourceId : String
  isHealthy : Bool
  status : String
  message : Option String := none
  responseTime : Option Nat := none
  timestamp : Option Nat := none
  lastCheck : Option Nat := none
  error : Option String := none
  dataSample : Option Value := none

/-- An alert document persisted to the `health_alerts` collection. -/
structure AlertDoc where
  sourceId : String
  type : String
  details : Value
  acknowledged : Bool := false

/-- Embeds `storeHealthCheck(healthStatus)`: one save of the record into the
`source_health_checks` collection; a backend failure is caught and
logged, so the invocation is what the model records. -/
def storeHealthCheck (hs : HealthStatus) : List HealthStatus := [hs]

/-- Embeds `checkAlerts(sourceId, healthStatus, alertConfig)`: reading
`thresholds` off a missing/`null` block throws into the `catch`
(yielding no alerts); a numeric `responseTime` threshold below the
measured time triggers `response_time_exceeded`; for an unhealthy
status, at least `consecutiveFailures` recent failures trigger
`consecutive_failures` (comparisons against missing or non-numeric
thresholds are false). -/
def checkAlerts (recentFailures : Nat) (hs : HealthStatus) (alertCfg : Value) :
    List AlertDoc :=
  match alertCfg.getField "thresholds" with
  | none => []
  | some .vNull => []
  | some th =>
      let a1 : List AlertDoc :=
        match th.getField "responseTime", hs.responseTime with
        | some (.vNum q), some rt =>
            if q ≠ 0 ∧ q < (rt : Rat) then
              [{ sourceId := hs.sourceId, type := "response_time_exceeded",
                 details := .vObj [("responseTime", .vNum (rt : Rat)), ("threshold", .vNum q)] }]
            else []
        | _, _ => []
      let a2 : List AlertDoc :=
        if ¬ hs.isHealthy then
          match th.getField "consecutiveFailures" with
          | some (.vNum q) =>
              if q ≤ (recentFailures : Rat) then
                [{ sourceId := hs.sourceId, type := "consecutive_failures",
                   details := .vObj [("failureCount", .vNum (recentFailures : Rat)),
                                     ("threshold", .vNum q)] }]
              else []
          | _ => []
        else []
      a1 ++ a2

/-- Everything one call of `checkSourceHealth` does: the value handed
back to the caller, the records passed to `storeHealthCheck`, and the
alerts persisted by `checkAlerts`/`triggerAlert`. -/
structure Outcome where
  returned : HealthStatus
  healthStores : List HealthStatus
  alertStores : List AlertDoc

/-- The early `no_config` return. -/
def noConfigStatus (sourceId : String) (now : Nat) : HealthStatus :=
  { sourceId, isHealthy := false, status := "no_config",
    message := some "No health configuration found", timestamp := some now }

/-- The early `disabled` return. -/
def disabledStatus (sourceId : String) (now : Nat) : HealthStatus :=
  { sourceId, isHealthy := true, status := "disabled",
    message := some "Health checks disabled", timestamp := some now }

/-- Embeds `checkSourceHealth(sourceId, sourceConfig, options)`.  `now` is
`new Date()`/`Date.now()` at entry, `rt` the measured response time,
`recentFailures` what the persistence layer reports for the
consecutive-failure alert, and `probe` the outcome of the dispatched
per-type probe call (an `Except.error` is any host-level exception
escaping into the outer `catch`, which stores and returns a
structured `error` status — the function itself never raises, as the
total return type shows). -/
def checkSourceHealth (now rt recentFailures : Nat) (sourceId : String)
    (sourceConfig : Option ConfigManager.SourceCfg)
    (probe : Except String ProbeResult) (detailed : Bool) : Outcome :=
  let healthBlock : Option Value := sourceConfig.bind (fun c => c.health)
  match (if optTruthy healthBlock then healthBlock else none) with
  | none => ⟨noConfigStatus sourceId now, [], []⟩
  | some healthCfg =>
      if ¬ fieldTruthy (some healthCfg) "enabled" then
        ⟨disabledStatus sourceId now, [], []⟩
      else
        match probe with
        | .error msg =>
            let errorStatus : HealthStatus :=
              { sourceId, isHealthy := false, status := "error",
                message := some "Health check failed", error := some msg,
                timestamp := some now }
            ⟨errorStatus, storeHealthCheck errorStatus, []⟩
        | .ok pr =>
            let healthStatus : HealthStatus :=
              { sourceId, isHealthy := pr.isHealthy, status := pr.status,
                message := some pr.message, responseTime := some rt,
                timestamp := some now, lastCheck := some now,
                error := orNullStr pr.error, dataSample := orNull pr.dataSample }
            let alerts : List AlertDoc :=
              match healthCfg.getField "alerts" with
              | some a =>
                  if a.truthy && fieldTruthy (some a) "enabled" then
                    checkAlerts recentFailures healthStatus a
                  else []
              | none => []
            let returned : HealthStatus :=
              if detailed then healthStatus
              else { sourceId, isHealthy := pr.isHealthy, status := pr.status,
                     responseTime := some rt }
            ⟨returned, storeHealthCheck healthStatus, alerts⟩

end HealthManager

/-! ## SourceManager (src/sources/index.js) -/

namespace SourceManager

/-- A connector's `harvest(options)` behaviour: given the resolved
`SourceConfig` and the options object it either returns a result
value or throws. -/
def Connector : Type :=
  ConfigManager.SourceCfg → Value → Except String Value

/-- The connector registry, `this.connectors : Map<type, class>`. -/
def Registry : Type := List (String × Connector)

/-- One entry of the list `harvestAll` returns (and the shape
`harvestSource` resolves to): the failure entry records the captured
error message instead of a result. -/
structure HarvestEntry where
  sourceId : String
  timestamp : Nat
  success : Bool
  result : Option Value := none
  error : Option String := none

/-- Embeds `getConnector(sourceType)`: an unregistered (or missing — the
`Map` lookup of `undefined` misses) type throws a descriptive
error. -/
def getConnector (reg : Registry) (sourceType : Option String) : Except String Connector :=
  match sourceType with
  | some t =>
      (match reg.lookup t with
       | some c => .ok c
       | none => .error ("Connector not found for type: " ++ t))
  | none => .error "Connector not found for type: undefined"

/-- Embeds `harvestSource(sourceId, sourceConfig, options)`: resolves the
connector, runs its harvest, wraps a success with
timestamp/`success: true` bookkeeping; any failure is logged and
rethrown unchanged. -/
def harvestSource (reg : Registry) (now : Nat) (sourceId : String)
    (cfg : ConfigManager.SourceCfg) (options : Value) : Except String HarvestEntry :=
  match getConnector reg cfg.type with
  | .error e => .error e
  | .ok connector =>
      match connector cfg options with
      | .ok r => .ok { sourceId, timestamp := now, success := true, result := some r }
      | .error e => .error e

/-- Embeds `harvestAll(options)`: iterates every configured source in order;
a per-source failure is captured into a `success: false` entry with
the error message and the loop continues.  The plain `List` return
type shows the call itself cannot raise. -/
def harvestAll (reg : Registry) (now : Nat) (options : Value)
    (sources : List (String × ConfigManager.SourceCfg)) : List HarvestEntry :=
  sources.map (fun p =>
    match harvestSource reg now p.1 p.2 options with
    | .ok entry => entry
    | .error m => { sourceId := p.1, timestamp := now, success := false, error := some m })

end SourceManager

/-! ## Concrete hosts and environments used to evaluate the model -/

/-- A minimal transformer host: every date is unparsable, every float
parse fails, JSON never parses, numbers print as empty.  Enough for
the string-and-enum runs below, where none of these primitives are
reached. -/
def trivialJsHost : DataTransformer.JsHost :=
  { dateParse := fun _ => none,
    dateToISO := fun _ => "",
    dateToLocaleFR := fun _ => "",
    parseFloat := fun _ => none,
    jsonParse := fun _ => none,
    numToString := fun _ => "" }

/-- An empty process environment. -/
def envEmpty : ConfigManager.Env := fun _ => none

/-- An environment defining exactly `X=v`. -/
def envX : ConfigManager.Env := fun n => if n = "X" then some "v" else none

/-! # Theorems -/

/-! ## C10 — enum transformation -/

/-- C10 (amended): `transformEnum` leaves the value unchanged when the
mapping is absent or falsy, when the value's key is not in the
mapping, and — the amendment — also when the key is present but maps
to a falsy value; only a truthy mapped value replaces the field.  An
absent or falsy field value makes the whole rule a no-op. -/
theorem transformEnum_semantics (host : DataTransformer.JsHost) (v m obj : Value)
    (rule : DataTransformer.Rule) :
    (DataTransformer.transformEnum host v none = v)
  ∧ (m.truthy = false → DataTransformer.transformEnum host v (some m) = v)
  ∧ (∀ mv, m.getField (DataTransformer.jsToString host v) = some mv →
      mv.truthy = true → DataTransformer.transformEnum host v (some m) = mv)
  ∧ (∀ mv, m.getField (DataTransformer.jsToString host v) = some mv →
      mv.truthy = false → DataTransformer.transformEnum host v (some m) = v)
  ∧ (m.getField (DataTransformer.jsToString host v) = none →
      DataTransformer.transformEnum host v (some m) = v)
  ∧ (obj.getField rule.field = none → DataTransformer.applyRuleToObject host obj rule = obj)
  ∧ (∀ w, obj.getField rule.field = some w → w.truthy = false →
      DataTransformer.applyRuleToObject host obj rule = obj) := by
  refine ⟨rfl, ?_, ?_, ?_, ?_, ?_, ?_⟩
  · intro hm
    simp [DataTransformer.transformEnum, hm]
  · intro mv hlook htr
    have hm : m.truthy = true := by
      cases m <;> simp_all [Value.getField, Value.truthy]
    simp [DataTransformer.transformEnum, hm, hlook, htr]
  · intro mv hlook htr
    have hm : m.truthy = true := by
      cases m <;> simp_all [Value.getField, Value.truthy]
    simp [DataTransformer.transformEnum, hm, hlook, htr]
  · intro hlook
    have hm : m.truthy = true ∨ m.truthy = false := by
      cases m.truthy <;> simp
    rcases hm with hm | hm <;>
      simp [DataTransformer.transformEnum, hm, hlook]
  · intro hlook
    unfold DataTransformer.applyRuleToObject
    by_cases hT : obj.truthy = true
    · by_cases hF : rule.field = ""
      · simp [hT, hF]
      · simp [hT, hF, hlook]
    · simp [hT]
  · intro w hlook htr
    unfold DataTransformer.applyRuleToObject
    by_cases hT : obj.truthy = true
    · by_cases hF : rule.field = ""
      · simp [hT, hF]
      · simp [hT, hF, hlook, htr]
    · simp [hT]

/-- C10, counterexample to the claim as stated: the field value `"01"`
is a key of the mapping (it maps to the empty string), yet the field
is not replaced by the mapped value — `transformEnum` only uses a
truthy lookup result, so the object comes back unchanged instead of
carrying `""`. -/
theorem transformEnum_falsy_mapping_counterexample :
    DataTransformer.applyRuleToObject trivialJsHost (.vObj [("effectifs", .vStr "01")])
      { field := "effectifs", type := "enum", mapping := some (.vObj [("01", .vStr "")]) }
      = .vObj [("effectifs", .vStr "01")]
  ∧ (Value.vObj [("01", .vStr "")]).getField "01" = some (.vStr "")
  ∧ ¬ (Value.vObj [("effectifs", .vStr "01")] = .vObj [("effectifs", .vStr "")]) := by
  refine ⟨rfl, rfl, fun h => ?_⟩
  simp [Value.vObj.injEq] at h

/-- C10, witness: the two concrete examples named by the claim hold —
`"01"` is sent to `"1 ou 2 salariés"` and the unmapped `"99"` passes
through unchanged. -/
theorem transformEnum_semantics_witness :
    DataTransformer.transformEnum trivialJsHost (.vStr "01")
      (some (.vObj [("01", .vStr "1 ou 2 salariés")])) = .vStr "1 ou 2 salariés"
  ∧ DataTransformer.transformEnum trivialJsHost (.vStr "99")
      (some (.vObj [("01", .vStr "1 ou 2 salariés")])) = .vStr "99" := by
  constructor
  · exact (transformEnum_semantics trivialJsHost (.vStr "01")
      (.vObj [("01", .vStr "1 ou 2 salariés")]) .vNull
      { field := "", type := "" }).2.2.1 (.vStr "1 ou 2 salariés") rfl rfl
  · exact (transformEnum_semantics trivialJsHost (.vStr "99")
      (.vObj [("01", .vStr "1 ou 2 salariés")]) .vNull
      { field := "", type := "" }).2.2.2.2.1 rfl

/-! ## C5 — per-field error isolation in the transformer -/

/-- C5: a rule whose transform raises on a field leaves the whole
object unchanged (the field keeps its original value and no other
field is touched); in an array, the other elements are still
transformed; and the remaining rules of the list are still applied —
the error is caught inside `applyRuleToObject` and never surfaces
(all transformer entry points are total functions). -/
theorem transformer_field_error_isolation (host : DataTransformer.JsHost)
    (obj : Value) (rule : DataTransformer.Rule) (v : Value) (msg : String)
    (data : Value) (r : DataTransformer.Rule) (rs : List DataTransformer.Rule) :
    (obj.getField rule.field = some v →
       DataTransformer.ruleTransform host v rule = .error msg →
       DataTransformer.applyRuleToObject host obj rule = obj)
  ∧ (∀ xs ys : List Value,
       DataTransformer.applyRule host (.vArr (xs ++ obj :: ys)) rule
         = .vArr (xs.map (fun it => DataTransformer.applyRuleToObject host it rule)
             ++ DataTransformer.applyRuleToObject host obj rule
               :: ys.map (fun it => DataTransformer.applyRuleToObject host it rule)))
  ∧ (DataTransformer.transform host data (r :: rs)
       = DataTransformer.transform host (DataTransformer.applyRule host data r) rs) := by
  refine ⟨?_, ?_, ?_⟩
  · intro hlook herr
    unfold DataTransformer.applyRuleToObject
    by_cases hT : obj.truthy = true
    · by_cases hF : rule.field = ""
      · simp [hT, hF]
      · by_cases hv : v.truthy = true
        · simp [hT, hF, hlook, hv, herr]
        · simp [hT, hF, hlook, hv]
    · simp [hT]
  · intro xs ys
    simp [DataTransformer.applyRule]
  · cases rs <;> simp [DataTransformer.transform]

/-- C5, witness: a `date` rule over an unparsable date string throws
inside the transform, and the two-field record comes back entirely
unchanged. -/
theorem transformer_field_error_isolation_witness :
    DataTransformer.applyRuleToObject trivialJsHost
      (.vObj [("date", .vStr "garbage"), ("keep", .vNum 1)])
      { field := "date", type := "date" }
      = .vObj [("date", .vStr "garbage"), ("keep", .vNum 1)] :=
  (transformer_field_error_isolation trivialJsHost
    (.vObj [("date", .vStr "garbage"), ("keep", .vNum 1)])
    { field := "date", type := "date" }
    (.vStr "garbage") "Date invalide: garbage"
    .vNull { field := "", type := "" } []).1 rfl rfl

/-! ## C4 — RateLimiter sliding window -/

/-- Helper: the wait time `checkLimit` computes, as a closed
formula. -/
theorem checkLimit_wait_formula (now : Nat) (st : RateLimiter.State) :
    (RateLimiter.checkLimit now st).1
      = (if st.requestsPerMinute ≤ (st.requests.filter (fun r => now - r < 60000)).length then
           (match st.requests.filter (fun r => now - r < 60000) with
            | oldest :: _ => 60000 - (now - oldest)
            | [] => 0)
         else 0) := rfl

/-- C4: `checkLimit` first discards timestamps older than 60 s, then —
when the kept count reaches the per-minute cap — suspends the caller
exactly until the oldest kept timestamp exits the 60 s window
(`now + wait = oldest + 60000`), and finally records the call by
appending the entry timestamp. -/
theorem rateLimiter_checkLimit_sliding_window (now : Nat) (st : RateLimiter.State) :
    ((RateLimiter.checkLimit now st).2.requestsPerMinute = st.requestsPerMinute)
  ∧ ((RateLimiter.checkLimit now st).2.requests
       = st.requests.filter (fun r => now - r < 60000) ++ [now])
  ∧ ((st.requests.filter (fun r => now - r < 60000)).length < st.requestsPerMinute →
       (RateLimiter.checkLimit now st).1 = 0)
  ∧ (∀ oldest rest, st.requests.filter (fun r => now - r < 60000) = oldest :: rest →
       st.requestsPerMinute ≤ (oldest :: rest).length → oldest ≤ now →
       now + (RateLimiter.checkLimit now st).1 = oldest + 60000) := by
  refine ⟨rfl, rfl, ?_, ?_⟩
  · intro hlt
    rw [checkLimit_wait_formula, if_neg (Nat.not_le.mpr hlt)]
  · intro oldest rest hfilter hcap hle
    have hmem : oldest ∈ st.requests.filter (fun r => now - r < 60000) := by
      rw [hfilter]
      exact List.mem_cons_self _ _
    have hw : now - oldest < 60000 := by
      have h := List.of_mem_filter hmem
      simpa using h
    rw [checkLimit_wait_formula, hfilter, if_pos hcap]
    show now + (60000 - (now - oldest)) = oldest + 60000
    omega

/-- C4, witness: with a cap of 2 requests per minute, two calls at
`t = 0` fill the window and the third call at `t = 0` suspends for
60 000 ms — until 60 s after the first call. -/
theorem rateLimiter_checkLimit_sliding_window_witness :
    (RateLimiter.checkLimit 0 (RateLimiter.checkLimit 0 (RateLimiter.mk (some 2))).2).2
      = { requestsPerMinute := 2, requests := [0, 0] }
  ∧ 0 + (RateLimiter.checkLimit 0 { requestsPerMinute := 2, requests := [0, 0] }).1
      = 0 + 60000 := by
  constructor
  · rfl
  · exact (rateLimiter_checkLimit_sliding_window 0
      { requestsPerMinute := 2, requests := [0, 0] }).2.2.2 0 [0] rfl
      (by decide) (by decide)

/-! ## C1 — harvestAll per-source isolation -/

/-- C1: `harvestAll` yields exactly one entry per configured source,
in order; a source whose harvest succeeds contributes its success
entry, and a source whose harvest throws contributes a
`success: false` entry carrying that error's message while the loop
continues over the remaining sources.  The plain `List` return type
of `harvestAll` is the never-raises guarantee. -/
theorem harvestAll_per_source_isolation (reg : SourceManager.Registry) (now : Nat)
    (options : Value) (sources : List (String × ConfigManager.SourceCfg)) :
    ((SourceManager.harvestAll reg now options sources).length = sources.length)
  ∧ (∀ i (hi : i < sources.length)
       (hi2 : i < (SourceManager.harvestAll reg now options sources).length),
       (∀ e, SourceManager.harvestSource reg now (sources.get ⟨i, hi⟩).1
               (sources.get ⟨i, hi⟩).2 options = .ok e →
          (SourceManager.harvestAll reg now options sources).get ⟨i, hi2⟩ = e)
     ∧ (∀ m, SourceManager.harvestSource reg now (sources.get ⟨i, hi⟩).1
               (sources.get ⟨i, hi⟩).2 options = .error m →
          (SourceManager.harvestAll reg now options sources).get ⟨i, hi2⟩
            = { sourceId := (sources.get ⟨i, hi⟩).1, timestamp := now,
                success := false, error := some m })) := by
  constructor
  · simp [SourceManager.harvestAll]
  · intro i hi hi2
    constructor
    · intro e he
      simp only [List.get_eq_getElem] at he
      simp [SourceManager.harvestAll, List.get_eq_getElem, List.getElem_map, he]
    · intro m hm
      simp only [List.get_eq_getElem] at hm
      simp [SourceManager.harvestAll, List.get_eq_getElem, List.getElem_map, hm]

/-- A two-source scenario for the C1 witness: the first source's type
has a registered connector, the second's does not, so its harvest
throws inside `harvestSource`. -/
def regW : SourceManager.Registry := [("good", fun _ _ => .ok (.vNum 7))]

/-- The two configured sources of the C1 witness scenario. -/
def sourcesW : List (String × ConfigManager.SourceCfg) :=
  [("s1", { type := some "good" }), ("s2", { type := some "bad" })]

/-- C1, witness: over the two-source scenario the result list has
length 2, entry 0 is the success entry and entry 1 captures the
thrown connector-lookup error with `success: false`. -/
theorem harvestAll_per_source_isolation_witness :
    (SourceManager.harvestAll regW 0 (.vObj []) sourcesW).length = 2
  ∧ (SourceManager.harvestAll regW 0 (.vObj []) sourcesW).get ⟨0, by decide⟩
      = { sourceId := "s1", timestamp := 0, success := true, result := some (.vNum 7) }
  ∧ (SourceManager.harvestAll regW 0 (.vObj []) sourcesW).get ⟨1, by decide⟩
      = { sourceId := "s2", timestamp := 0, success := false,
          error := some "Connector not found for type: bad" } := by
  refine ⟨(harvestAll_per_source_isolation regW 0 (.vObj []) sourcesW).1.trans rfl, ?_, ?_⟩
  · exact ((harvestAll_per_source_isolation regW 0 (.vObj []) sourcesW).2 0
      (by decide) (by decide)).1
      { sourceId := "s1", timestamp := 0, success := true, result := some (.vNum 7) } rfl
  · exact ((harvestAll_per_source_isolation regW 0 (.vObj []) sourcesW).2 1
      (by decide) (by decide)).2 "Connector not found for type: bad" rfl

/-! ## C2 — checkSourceHealth never raises; config cases -/

/-- C2: `checkSourceHealth` is a total function (the outer `catch`
turns any probe-level exception into a structured `error` status, as
the third conjunct shows), a configuration without a truthy `health`
block yields `isHealthy: false` with status `no_config`, and a
present-but-disabled `health` block yields status `disabled` reported
healthy. -/
theorem checkSourceHealth_total_and_config_cases (now rt rf : Nat) (sourceId : String)
    (cfg : Option ConfigManager.SourceCfg)
    (probe : Except String HealthManager.ProbeResult) (detailed : Bool) :
    (Value.optTruthy (cfg.bind (fun c => c.health)) = false →
       HealthManager.checkSourceHealth now rt rf sourceId cfg probe detailed
         = ⟨HealthManager.noConfigStatus sourceId now, [], []⟩
       ∧ (HealthManager.noConfigStatus sourceId now).isHealthy = false
       ∧ (HealthManager.noConfigStatus sourceId now).status = "no_config")
  ∧ (∀ h, cfg.bind (fun c => c.health) = some h → h.truthy = true →
       Value.fieldTruthy (some h) "enabled" = false →
       (HealthManager.checkSourceHealth now rt rf sourceId cfg probe detailed).returned
         = HealthManager.disabledStatus sourceId now
       ∧ (HealthManager.disabledStatus sourceId now).isHealthy = true
       ∧ (HealthManager.disabledStatus sourceId now).status = "disabled")
  ∧ (∀ h msg, cfg.bind (fun c => c.health) = some h → h.truthy = true →
       Value.fieldTruthy (some h) "enabled" = true → probe = .error msg →
       (HealthManager.checkSourceHealth now rt rf sourceId cfg probe detailed).returned.status
         = "error"
       ∧ (HealthManager.checkSourceHealth now rt rf sourceId cfg probe detailed).returned.isHealthy
         = false) := by
  refine ⟨?_, ?_, ?_⟩
  · intro hb
    exact ⟨by simp [HealthManager.checkSourceHealth, hb], rfl, rfl⟩
  · intro h hb htr hen
    refine ⟨?_, rfl, rfl⟩
    simp [HealthManager.checkSourceHealth, hb, Value.optTruthy, htr, hen]
  · intro h msg hb htr hen hp
    constructor <;>
      simp [HealthManager.checkSourceHealth, hb, Value.optTruthy, htr, hen, hp]

/-- C2, witness: a config with no `health` block returns the
`no_config` status, a config with `health.enabled = false` returns
`disabled`/healthy, and a host-level probe exception yields the
structured `error` status instead of raising. -/
theorem checkSourceHealth_total_and_config_cases_witness :
    HealthManager.checkSourceHealth 0 0 0 "s" (some {})
        (.ok { isHealthy := true, status := "healthy", message := "ok" }) true
      = ⟨HealthManager.noConfigStatus "s" 0, [], []⟩
  ∧ (HealthManager.checkSourceHealth 0 0 0 "s"
        (some { health := some (.vObj [("enabled", .vBool false)]) })
        (.ok { isHealthy := true, status := "healthy", message := "ok" }) true).returned
      = HealthManager.disabledStatus "s" 0
  ∧ (HealthManager.checkSourceHealth 0 0 0 "s"
        (some { health := some (.vObj [("enabled", .vBool true)]) })
        (.error "boom") true).returned.status = "error" := by
  refine ⟨?_, ?_, ?_⟩
  · exact ((checkSourceHealth_total_and_config_cases 0 0 0 "s" (some {})
      (.ok { isHealthy := true, status := "healthy", message := "ok" }) true).1 rfl).1
  · exact ((checkSourceHealth_total_and_config_cases 0 0 0 "s"
      (some { health := some (.vObj [("enabled", .vBool false)]) })
      (.ok { isHealthy := true, status := "healthy", message := "ok" }) true).2.1
      (.vObj [("enabled", .vBool false)]) rfl rfl rfl).1
  · exact ((checkSourceHealth_total_and_config_cases 0 0 0 "s"
      (some { health := some (.vObj [("enabled", .vBool true)]) })
      (.error "boom") true).2.2
      (.vObj [("enabled", .vBool true)]) "boom" rfl rfl rfl rfl).1

/-! ## C6 — persistence of health-check results -/

/-- C6 (amended): only checks that reach the probe dispatch persist a
record — exactly one, the full status object, both on a completed
probe and on the exception path — whereas the early `no_config` and
`disabled` returns persist nothing. -/
theorem checkSourceHealth_persistence_cases (now rt rf : Nat) (sourceId : String)
    (cfg : Option ConfigManager.SourceCfg)
    (probe : Except String HealthManager.ProbeResult) (detailed : Bool) :
    (Value.optTruthy (cfg.bind (fun c => c.health)) = false →
       (HealthManager.checkSourceHealth now rt rf sourceId cfg probe detailed).healthStores = [])
  ∧ (∀ h, cfg.bind (fun c => c.health) = some h → h.truthy = true →
       Value.fieldTruthy (some h) "enabled" = false →
       (HealthManager.checkSourceHealth now rt rf sourceId cfg probe detailed).healthStores = [])
  ∧ (∀ h msg, cfg.bind (fun c => c.health) = some h → h.truthy = true →
       Value.fieldTruthy (some h) "enabled" = true → probe = .error msg →
       (HealthManager.checkSourceHealth now rt rf sourceId cfg probe detailed).healthStores
         = HealthManager.storeHealthCheck
             { sourceId, isHealthy := false, status := "error",
               message := some "Health check failed", error := some msg,
               timestamp := some now })
  ∧ (∀ h pr, cfg.bind (fun c => c.health) = some h → h.truthy = true →
       Value.fieldTruthy (some h) "enabled" = true → probe = .ok pr →
       (HealthManager.checkSourceHealth now rt rf sourceId cfg probe detailed).healthStores
         = HealthManager.storeHealthCheck
             { sourceId, isHealthy := pr.isHealthy, status := pr.status,
               message := some pr.message, responseTime := some rt,
               timestamp := some now, lastCheck := some now,
               error := HealthManager.orNullStr pr.error,
               dataSample := HealthManager.orNull pr.dataSample }) := by
  refine ⟨?_, ?_, ?_, ?_⟩
  · intro hb
    simp [HealthManager.checkSourceHealth, hb]
  · intro h hb htr hen
    simp [HealthManager.checkSourceHealth, hb, Value.optTruthy, htr, hen]
  · intro h msg hb htr hen hp
    simp [HealthManager.checkSourceHealth, hb, Value.optTruthy, htr, hen, hp]
  · intro h pr hb htr hen hp
    simp [HealthManager.checkSourceHealth, hb, Value.optTruthy, htr, hen, hp,
      HealthManager.storeHealthCheck]

/-- C6, counterexample to the claim as stated: two complete
invocations of `checkSourceHealth` — one on a config lacking the
`health` block (`no_config`), one on a disabled block (`disabled`) —
return without passing anything to `storeHealthCheck`, so not every
invocation persists its result. -/
theorem checkSourceHealth_no_store_counterexample :
    (HealthManager.checkSourceHealth 0 0 0 "s" (some {})
        (.ok { isHealthy := true, status := "healthy", message := "ok" }) true).healthStores = []
  ∧ (HealthManager.checkSourceHealth 0 0 0 "s" (some {})
        (.ok { isHealthy := true, status := "healthy", message := "ok" }) true).returned.status
      = "no_config"
  ∧ (HealthManager.checkSourceHealth 0 0 0 "s"
        (some { health := some (.vObj [("enabled", .vBool false)]) })
        (.ok { isHealthy := true, status := "healthy", message := "ok" }) true).healthStores = []
  ∧ (HealthManager.checkSourceHealth 0 0 0 "s"
        (some { health := some (.vObj [("enabled", .vBool false)]) })
        (.ok { isHealthy := true, status := "healthy", message := "ok" }) true).returned.status
      = "disabled" :=
  ⟨rfl, rfl, rfl, rfl⟩

/-- C6, witness for the amended statement: an enabled health block
with a completed probe stores exactly the one full record, and the
exception path stores exactly the one `error` record. -/
theorem checkSourceHealth_persistence_cases_witness :
    (HealthManager.checkSourceHealth 0 5 0 "s"
        (some { health := some (.vObj [("enabled", .vBool true)]) })
        (.ok { isHealthy := true, status := "healthy", message := "ok" }) false).healthStores
      = [{ sourceId := "s", isHealthy := true, status := "healthy",
           message := some "ok", responseTime := some 5,
           timestamp := some 0, lastCheck := some 0 }]
  ∧ (HealthManager.checkSourceHealth 0 5 0 "s"
        (some { health := some (.vObj [("enabled", .vBool true)]) })
        (.error "boom") false).healthStores
      = [{ sourceId := "s", isHealthy := false, status := "error",
           message := some "Health check failed", error := some "boom",
           timestamp := some 0 }] := by
  constructor
  · exact (checkSourceHealth_persistence_cases 0 5 0 "s"
      (some { health := some (.vObj [("enabled", .vBool true)]) })
      (.ok { isHealthy := true, status := "healthy", message := "ok" }) false).2.2.2
      (.vObj [("enabled", .vBool true)])
      { isHealthy := true, status := "healthy", message := "ok" } rfl rfl rfl rfl
  · exact (checkSourceHealth_persistence_cases 0 5 0 "s"
      (some { health := some (.vObj [("enabled", .vBool true)]) })
      (.error "boom") false).2.2.1
      (.vObj [("enabled", .vBool true)]) "boom" rfl rfl rfl rfl

/-! ## C7 — configuration validation -/

/-- C7 (amended): `validateSourceConfig` checks only the connection
block (presence, then `baseUrl`) and the persistence block (presence,
then `strategies`); every failed check among those contributes its
message and the error lists them all; `id`, `name` and `type` are
never inspected. -/
theorem validateSourceConfig_checked_fields (sourceId : String)
    (cfg : ConfigManager.SourceCfg) :
    (ConfigManager.validationErrors cfg = [] →
       ConfigManager.validateSourceConfig sourceId (some cfg) = .ok true)
  ∧ (ConfigManager.validationErrors cfg ≠ [] →
       ConfigManager.validateSourceConfig sourceId (some cfg)
         = .error ("Configuration validation failed for " ++ sourceId ++ ": "
             ++ String.intercalate ", " (ConfigManager.validationErrors cfg)))
  ∧ (Value.optTruthy cfg.connection = false →
       "Connection configuration is required" ∈ ConfigManager.validationErrors cfg)
  ∧ (Value.optTruthy cfg.connection = true →
       Value.fieldTruthy cfg.connection "baseUrl" = false →
       "Connection baseUrl is required" ∈ ConfigManager.validationErrors cfg)
  ∧ (Value.optTruthy cfg.persistence = false →
       "Persistence configuration is required" ∈ ConfigManager.validationErrors cfg)
  ∧ (Value.optTruthy cfg.persistence = true →
       Value.fieldTruthy cfg.persistence "strategies" = false →
       "Persistence strategies are required" ∈ ConfigManager.validationErrors cfg)
  ∧ (∀ i n t, ConfigManager.validationErrors { cfg with id := i, name := n, type := t }
       = ConfigManager.validationErrors cfg) := by
  refine ⟨?_, ?_, ?_, ?_, ?_, ?_, fun i n t => rfl⟩
  · intro h
    simp [ConfigManager.validateSourceConfig, h]
  · intro h
    simp [ConfigManager.validateSourceConfig, List.length_pos.mpr h]
  · intro h
    simp [ConfigManager.validationErrors, h]
  · intro h1 h2
    simp [ConfigManager.validationErrors, h1, h2]
  · intro h
    simp [ConfigManager.validationErrors, h]
  · intro h1 h2
    simp [ConfigManager.validationErrors, h1, h2]

/-- A source configuration with valid connection and persistence blocks
but no `id`, `name` or `type` at all. -/
def cfgIdless : ConfigManager.SourceCfg :=
  { connection := some (.vObj [("baseUrl", .vStr "http://x")]),
    persistence := some (.vObj [("strategies", .vObj [("a", .vBool true)])]) }

/-- C7, counterexample to the claim as stated: a configuration missing
`id`, `name` and `type` — a non-empty subset of the fields the claim
says are enforced — still validates successfully, because the
validator never looks at them. -/
theorem validateSourceConfig_ignores_identity_counterexample :
    cfgIdless.id = none ∧ cfgIdless.name = none ∧ cfgIdless.type = none
  ∧ ConfigManager.validateSourceConfig "s" (some cfgIdless) = .ok true :=
  ⟨rfl, rfl, rfl, rfl⟩

/-- C7, witness: a configuration missing both checked blocks fails
with a message listing both errors, not just the first. -/
theorem validateSourceConfig_checked_fields_witness :
    ConfigManager.validateSourceConfig "s" (some {})
      = .error ("Configuration validation failed for s: "
          ++ "Connection configuration is required, Persistence configuration is required")
  ∧ "Connection configuration is required"
      ∈ ConfigManager.validationErrors ({} : ConfigManager.SourceCfg)
  ∧ "Persistence configuration is required"
      ∈ ConfigManager.validationErrors ({} : ConfigManager.SourceCfg) := by
  refine ⟨?_, ?_, ?_⟩
  · exact (validateSourceConfig_checked_fields "s" {}).2.1 (by decide)
  · exact (validateSourceConfig_checked_fields "s" {}).2.2.1 rfl
  · exact (validateSourceConfig_checked_fields "s" {}).2.2.2.2.1 rfl

/-! ## C8 — per-source document fault tolerance -/

/-- Helper: `loadSourceConfigs` always succeeds, returning one loaded
configuration per non-filtered directory entry. -/
theorem loadSourceConfigs_eq (env : ConfigManager.Env)
    (items : List (String × ConfigManager.SourceDir)) :
    ConfigManager.loadSourceConfigs env items
      = .ok ((items.filter (fun p => p.1 ≠ "passport-strategies")).map (fun p =>
          (p.1, { id := some p.1, name := some p.1, type := some p.1,
                  connection := (ConfigManager.loadDocField p.2.connection).map
                    (ConfigManager.replaceEnvVars env),
                  persistence := ConfigManager.loadDocField p.2.persistence,
                  schedule := ConfigManager.loadDocField p.2.schedule,
                  transform := ConfigManager.loadDocField p.2.transform,
                  health := ConfigManager.loadDocField p.2.health }))) := by
  unfold ConfigManager.loadSourceConfigs
  generalize (items.filter (fun p => p.1 ≠ "passport-strategies")) = l
  induction l with
  | nil => rfl
  | cons hd tl ih =>
      simp [ConfigManager.loadSourceConfig] at ih ⊢
      rw [ih]
      rfl

/-- C8 (amended): a missing per-source document and a malformed one
are treated identically — both are caught by the per-document
`try`/`catch`, leave the field `null`, and the source's load
completes; consequently loading never throws and every non-filtered
source directory is loaded, whatever its documents contain. -/
theorem loadSourceConfig_document_fault_tolerance (env : ConfigManager.Env)
    (name : String) (dir : ConfigManager.SourceDir)
    (items : List (String × ConfigManager.SourceDir)) (v : Value) :
    (ConfigManager.loadDocField .missing = none)
  ∧ (ConfigManager.loadDocField .malformed = none)
  ∧ (ConfigManager.loadDocField (.parsed v) = some v)
  ∧ (ConfigManager.loadSourceConfig env name dir
       = .ok { id := some name, name := some name, type := some name,
               connection := (ConfigManager.loadDocField dir.connection).map
                 (ConfigManager.replaceEnvVars env),
               persistence := ConfigManager.loadDocField dir.persistence,
               schedule := ConfigManager.loadDocField dir.schedule,
               transform := ConfigManager.loadDocField dir.transform,
               health := ConfigManager.loadDocField dir.health })
  ∧ (∀ cfgs, ConfigManager.loadSourceConfigs env items = .ok cfgs →
       cfgs.map Prod.fst = (items.filter (fun p => p.1 ≠ "passport-strategies")).map Prod.fst)
  ∧ (∀ msg, ConfigManager.loadSourceConfigs env items ≠ .error msg) := by
  refine ⟨rfl, rfl, rfl, rfl, ?_, ?_⟩
  · intro cfgs hcfgs
    rw [loadSourceConfigs_eq] at hcfgs
    cases hcfgs
    simp
  · intro msg h
    rw [loadSourceConfigs_eq] at h
    cases h

/-- C8, counterexample to the claim as stated: a source directory
whose `persistence.json` is present but unparsable loads successfully
— the malformed document is not fatal to that source's load; it is
handled exactly like a missing one, leaving the field `null`. -/
theorem loadSourceConfig_malformed_nonfatal_counterexample :
    ConfigManager.loadSourceConfig envEmpty "s" { persistence := .malformed }
      = .ok { id := some "s", name := some "s", type := some "s" }
  ∧ ConfigManager.readDoc .malformed
      = .error "SyntaxError: Unexpected token in JSON" :=
  ⟨rfl, rfl⟩

/-- C8, witness: a directory missing `persistence.json` loads with
`persistence = null` and no failure, and a two-source listing whose
second source has a malformed document still loads both sources. -/
theorem loadSourceConfig_document_fault_tolerance_witness :
    ConfigManager.loadSourceConfig envEmpty "s" { persistence := .missing }
      = .ok { id := some "s", name := some "s", type := some "s" }
  ∧ ConfigManager.loadSourceConfigs envEmpty
      [("a", {}), ("b", { persistence := .malformed })] ≠ .error "x" := by
  constructor
  · exact (loadSourceConfig_document_fault_tolerance envEmpty "s"
      { persistence := .missing } [] .vNull).2.2.2.1
  · exact (loadSourceConfig_document_fault_tolerance envEmpty "s"
      { persistence := .missing }
      [("a", {}), ("b", { persistence := .malformed })] .vNull).2.2.2.2.2 "x"

/-! ## C9 — environment-variable interpolation scope -/

/-- Helper: a brace-free prefix followed by a closing brace splits at
exactly that brace. -/
theorem splitAtBrace_append (l : List Char) (rest : List Char) (h : '}' ∉ l) :
    ConfigManager.splitAtBrace (l ++ '}' :: rest) = some (l, rest) := by
  induction l with
  | nil => simp [ConfigManager.splitAtBrace]
  | cons c cs ih =>
      have hc : ¬ c = '}' := fun hcc => h (hcc ▸ List.mem_cons_self c cs)
      have hcs : '}' ∉ cs := fun hm => h (List.mem_cons_of_mem c hm)
      simp [ConfigManager.splitAtBrace, hc, ih hcs]

/-- Helper: scanning the empty character list yields the empty list at
any fuel. -/
theorem interpGo_nil (env : ConfigManager.Env) (fuel : Nat) :
    ConfigManager.interpGo env fuel [] = [] := by
  cases fuel <;> rfl

/-- C9 (amended): string interpolation replaces a set `${NAME}`
placeholder by the variable's value and keeps an unset one literally
— but only the global document and the per-source connection
document go through `replaceEnvVars`; the persistence, schedule,
transform and health documents are loaded verbatim. -/
theorem config_interpolation_scope (env : ConfigManager.Env) (name v : String)
    (doc : Value) (dir : ConfigManager.SourceDir) (srcName : String) :
    (name.data ≠ [] → '}' ∉ name.data → env name = some v → v ≠ "" →
       ConfigManager.interpolate env ("$\x7b" ++ name ++ "\x7d") = v)
  ∧ (name.data ≠ [] → '}' ∉ name.data → env name = none →
       ConfigManager.interpolate env ("$\x7b" ++ name ++ "\x7d") = "$\x7b" ++ name ++ "\x7d")
  ∧ (ConfigManager.loadGlobalConfig env (.parsed doc)
       = .ok (ConfigManager.replaceEnvVars env doc))
  ∧ (∀ c cfg, dir.connection = .parsed c →
       ConfigManager.loadSourceConfig env srcName dir = .ok cfg →
       cfg.connection = some (ConfigManager.replaceEnvVars env c))
  ∧ (∀ p cfg, dir.persistence = .parsed p →
       ConfigManager.loadSourceConfig env srcName dir = .ok cfg →
       cfg.persistence = some p)
  ∧ (∀ s cfg, dir.schedule = .parsed s →
       ConfigManager.loadSourceConfig env srcName dir = .ok cfg →
       cfg.schedule = some s)
  ∧ (∀ t cfg, dir.transform = .parsed t →
       ConfigManager.loadSourceConfig env srcName dir = .ok cfg →
       cfg.transform = some t)
  ∧ (∀ hd cfg, dir.health = .parsed hd →
       ConfigManager.loadSourceConfig env srcName dir = .ok cfg →
       cfg.health = some hd) := by
  have hdata : ("$\x7b" ++ name ++ "\x7d").data = '$' :: '{' :: (name.data ++ ['}']) := by
    simp [String.data_append]
  refine ⟨?_, ?_, rfl, ?_, ?_, ?_, ?_, ?_⟩
  · intro hne hbr henv hv
    obtain ⟨c, cs, hcc⟩ := List.exists_cons_of_ne_nil hne
    have hmk : String.mk (c :: cs) = name := by rw [← hcc]
    have hsplit := splitAtBrace_append name.data [] hbr
    rw [hcc] at hsplit
    simp only [List.cons_append] at hsplit
    unfold ConfigManager.interpolate
    rw [hdata, hcc]
    simp only [List.cons_append]
    simp only [ConfigManager.interpGo]
    rw [hsplit]
    simp [hmk, henv, hv, interpGo_nil]
  · intro hne hbr henv
    obtain ⟨c, cs, hcc⟩ := List.exists_cons_of_ne_nil hne
    have hmk : String.mk (c :: cs) = name := by rw [← hcc]
    have hsplit := splitAtBrace_append name.data [] hbr
    rw [hcc] at hsplit
    simp only [List.cons_append] at hsplit
    unfold ConfigManager.interpolate
    rw [hdata, hcc]
    simp only [List.cons_append]
    simp only [ConfigManager.interpGo]
    rw [hsplit]
    simp only [hmk, henv, interpGo_nil, List.append_nil]
    apply String.ext
    rw [hdata, hcc]
  · intro c cfg hc hcfg
    simp [ConfigManager.loadSourceConfig] at hcfg
    rw [← hcfg]
    simp [hc, ConfigManager.loadDocField, ConfigManager.readDoc]
  · intro p cfg hp hcfg
    simp [ConfigManager.loadSourceConfig] at hcfg
    rw [← hcfg]
    simp [hp, ConfigManager.loadDocField, ConfigManager.readDoc]
  · intro s cfg hs hcfg
    simp [ConfigManager.loadSourceConfig] at hcfg
    rw [← hcfg]
    simp [hs, ConfigManager.loadDocField, ConfigManager.readDoc]
  · intro t cfg ht hcfg
    simp [ConfigManager.loadSourceConfig] at hcfg
    rw [← hcfg]
    simp [ht, ConfigManager.loadDocField, ConfigManager.readDoc]
  · intro hd cfg hh hcfg
    simp [ConfigManager.loadSourceConfig] at hcfg
    rw [← hcfg]
    simp [hh, ConfigManager.loadDocField, ConfigManager.readDoc]

/-- C9, counterexample to the claim as stated: with `X` set in the
environment, a `persistence.json` containing the string placeholder
loads verbatim — `loadSourceConfig` does not pass the persistence
document through `replaceEnvVars`, although interpolation would have
substituted the value. -/
theorem loadSourceConfig_persistence_not_interpolated_counterexample :
    ConfigManager.loadSourceConfig envX "s" { persistence := .parsed (.vStr "${X}") }
      = .ok { id := some "s", name := some "s", type := some "s",
              persistence := some (.vStr "${X}") }
  ∧ ConfigManager.replaceEnvVars envX (.vStr "${X}") = .vStr "v"
  ∧ ¬ (Value.vStr "${X}" = Value.vStr "v") := by
  refine ⟨rfl, rfl, fun h => ?_⟩
  simp [Value.vStr.injEq] at h

/-- C9, witness: concrete interpolation runs — a set variable is
substituted, an unset one keeps its literal placeholder — and a
connection document is interpolated by the loader while a persistence
document is not. -/
theorem config_interpolation_scope_witness :
    ConfigManager.interpolate envX ("$\x7b" ++ "X" ++ "\x7d") = "v"
  ∧ ConfigManager.interpolate envEmpty ("$\x7b" ++ "X" ++ "\x7d") = "$\x7b" ++ "X" ++ "\x7d"
  ∧ (∀ cfg, ConfigManager.loadSourceConfig envX "s"
        { connection := .parsed (.vStr "${X}"), persistence := .parsed (.vStr "${X}") }
        = .ok cfg →
      cfg.connection = some (ConfigManager.replaceEnvVars envX (.vStr "${X}"))) := by
  refine ⟨?_, ?_, ?_⟩
  · exact (config_interpolation_scope envX "X" "v" .vNull {} "s").1
      (by decide) (by decide) (by simp [envX]) (by decide)
  · exact (config_interpolation_scope envEmpty "X" "" .vNull {} "s").2.1
      (by decide) (by decide) rfl
  · intro cfg hcfg
    exact (config_interpolation_scope envX "X" "v" .vNull
      { connection := .parsed (.vStr "${X}"), persistence := .parsed (.vStr "${X}") }
      "s").2.2.2.1 (.vStr "${X}") cfg rfl hcfg

/-! ## C3 — RetryHandler failure classification and backoff -/

/-- Helper: if attempts `attempt … m-1` fail retryably and attempt `m`
(within the remaining fuel) succeeds, the loop stops at `m` with the
successful result, having slept the exponential-backoff delays of the
failed attempts. -/
theorem executeGo_success {α : Type} (cfg : RetryHandler.Config)
    (op : Nat → Except JsError α) (v : α) :
    ∀ fuel attempt, 1 ≤ attempt → ∀ m, attempt ≤ m → m < attempt + fuel →
    op m = .ok v →
    (∀ k, attempt ≤ k → k < m → ∃ e, op k = .error e ∧ RetryHandler.nonRetryable e = false) →
    ∀ le, RetryHandler.executeGo cfg op attempt fuel le
      = ⟨.ok v, m - attempt + 1,
         (List.range (m - attempt)).map
           (fun i => cfg.delayMs * cfg.backoffMultiplier ^ (attempt - 1 + i))⟩ := by
  intro fuel
  induction fuel with
  | zero =>
      intro attempt h1 m hm1 hm2
      omega
  | succ f ih =>
      intro attempt h1 m hm1 hm2 hok hfail le
      by_cases hEq : attempt = m
      · subst hEq
        simp [RetryHandler.executeGo, hok]
      · have hlt : attempt < m := lt_of_le_of_ne hm1 hEq
        obtain ⟨e, he, hnr⟩ := hfail attempt (le_refl _) hlt
        have hf : ¬ f = 0 := by omega
        simp only [RetryHandler.executeGo, he]
        rw [if_neg (by simp [hnr]), if_neg hf]
        rw [ih (attempt + 1) (by omega) m (by omega) (by omega) hok
            (fun k hk1 hk2 => hfail k (by omega) hk2) e]
        rw [show m - attempt = (m - (attempt + 1)) + 1 by omega,
          List.range_succ_eq_map, List.map_cons, List.map_map]
        simp only [RetryHandler.RunTrace.mk.injEq, List.cons.injEq, Nat.add_zero, true_and]
        refine List.map_congr_left (fun i _ => ?_)
        simp only [Function.comp_apply]
        congr 2
        omega

/-- Helper: if every attempt in the fuel window fails retryably, the
loop runs the window down and rethrows the last attempt's error, with
one backoff delay per non-final attempt. -/
theorem executeGo_exhaust {α : Type} (cfg : RetryHandler.Config)
    (op : Nat → Except JsError α) (efn : Nat → JsError) :
    ∀ fuel, 1 ≤ fuel → ∀ attempt, 1 ≤ attempt →
    (∀ k, attempt ≤ k → k < attempt + fuel →
       op k = .error (efn k) ∧ RetryHandler.nonRetryable (efn k) = false) →
    ∀ le, RetryHandler.executeGo cfg op attempt fuel le
      = ⟨.error (efn (attempt + fuel - 1)), fuel,
         (List.range (fuel - 1)).map
           (fun i => cfg.delayMs * cfg.backoffMultiplier ^ (attempt - 1 + i))⟩ := by
  intro fuel
  induction fuel with
  | zero => omega
  | succ f ih =>
      intro _ attempt h1 hfail le
      obtain ⟨he, hnr⟩ := hfail attempt (le_refl _) (by omega)
      by_cases hf : f = 0
      · subst hf
        simp [RetryHandler.executeGo, he, hnr]
      · simp only [RetryHandler.executeGo, he]
        rw [if_neg (by simp [hnr]), if_neg hf]
        rw [ih (by omega) (attempt + 1) (by omega)
            (fun k hk1 hk2 => hfail k (by omega) (by omega)) (efn attempt)]
        rw [show f + 1 - 1 = (f - 1) + 1 by omega,
          List.range_succ_eq_map, List.map_cons, List.map_map]
        simp only [RetryHandler.RunTrace.mk.injEq, List.cons.injEq, Nat.add_zero, true_and]
        refine ⟨by rw [show attempt + 1 + f - 1 = attempt + (f + 1) - 1 by omega], ?_⟩
        refine List.map_congr_left (fun i _ => ?_)
        simp only [Function.comp_apply]
        congr 2
        omega

/-- Helper: if attempts `attempt … m-1` fail retryably and attempt `m`
(within the remaining fuel) fails non-retryably, the loop stops at
`m` and rethrows that error at once — no further invocation, and only
the backoff delays of the earlier retryable failures were slept. -/
theorem executeGo_nonretryable_stop {α : Type} (cfg : RetryHandler.Config)
    (op : Nat → Except JsError α) (e : JsError) :
    ∀ fuel attempt, 1 ≤ attempt → ∀ m, attempt ≤ m → m < attempt + fuel →
    op m = .error e → RetryHandler.nonRetryable e = true →
    (∀ k, attempt ≤ k → k < m → ∃ e', op k = .error e' ∧ RetryHandler.nonRetryable e' = false) →
    ∀ le, RetryHandler.executeGo cfg op attempt fuel le
      = ⟨.error e, m - attempt + 1,
         (List.range (m - attempt)).map
           (fun i => cfg.delayMs * cfg.backoffMultiplier ^ (attempt - 1 + i))⟩ := by
  intro fuel
  induction fuel with
  | zero =>
      intro attempt h1 m hm1 hm2
      omega
  | succ f ih =>
      intro attempt h1 m hm1 hm2 herr hnr hfail le
      by_cases hEq : attempt = m
      · subst hEq
        simp [RetryHandler.executeGo, herr, hnr]
      · have hlt : attempt < m := lt_of_le_of_ne hm1 hEq
        obtain ⟨e', he', hnr'⟩ := hfail attempt (le_refl _) hlt
        have hf : ¬ f = 0 := by omega
        simp only [RetryHandler.executeGo, he']
        rw [if_neg (by simp [hnr']), if_neg hf]
        rw [ih (attempt + 1) (by omega) m (by omega) (by omega) herr hnr
            (fun k hk1 hk2 => hfail k (by omega) hk2) e']
        rw [show m - attempt = (m - (attempt + 1)) + 1 by omega,
          List.range_succ_eq_map, List.map_cons, List.map_map]
        simp only [RetryHandler.RunTrace.mk.injEq, List.cons.injEq, Nat.add_zero, true_and]
        refine List.map_congr_left (fun i _ => ?_)
        simp only [Function.comp_apply]
        congr 2
        omega

/-- C3: with at least one allowed attempt, `execute` propagates a
non-retryable failure (a 4xx other than 429) immediately at whatever
attempt `m` it occurs — exactly `m` invocations, no further one, with
only the earlier retryable attempts' backoff delays slept; invokes
the operation once per attempt until a success, sleeping
`delayMs * backoffMultiplier ^ (attempt - 1)` between attempts, and
returns the succeeding attempt's result; and after `maxAttempts`
retryable failures propagates the last attempt's error unchanged. -/
theorem retryHandler_execute_classification {α : Type} (cfg : RetryHandler.Config)
    (op : Nat → Except JsError α) (h1 : 1 ≤ cfg.maxAttempts) :
    (∀ m e, 1 ≤ m → m ≤ cfg.maxAttempts → op m = .error e →
       RetryHandler.nonRetryable e = true →
       (∀ k, 1 ≤ k → k < m → ∃ e', op k = .error e' ∧ RetryHandler.nonRetryable e' = false) →
       RetryHandler.execute cfg op
         = ⟨.error e, m, (List.range (m - 1)).map
             (fun i => cfg.delayMs * cfg.backoffMultiplier ^ i)⟩)
  ∧ (∀ m v, 1 ≤ m → m ≤ cfg.maxAttempts → op m = .ok v →
       (∀ k, 1 ≤ k → k < m → ∃ e, op k = .error e ∧ RetryHandler.nonRetryable e = false) →
       RetryHandler.execute cfg op
         = ⟨.ok v, m, (List.range (m - 1)).map
             (fun i => cfg.delayMs * cfg.backoffMultiplier ^ i)⟩)
  ∧ (∀ efn : Nat → JsError,
       (∀ k, 1 ≤ k → k ≤ cfg.maxAttempts →
          op k = .error (efn k) ∧ RetryHandler.nonRetryable (efn k) = false) →
       RetryHandler.execute cfg op
         = ⟨.error (efn cfg.maxAttempts), cfg.maxAttempts,
            (List.range (cfg.maxAttempts - 1)).map
              (fun i => cfg.delayMs * cfg.backoffMultiplier ^ i)⟩) := by
  refine ⟨?_, ?_, ?_⟩
  · intro m e hm1 hm2 herr hnr hfail
    have h := executeGo_nonretryable_stop cfg op e cfg.maxAttempts 1 (le_refl 1) m hm1
      (by omega) herr hnr (fun k hk1 hk2 => hfail k hk1 hk2) .undef
    unfold RetryHandler.execute
    rw [h]
    simp only [RetryHandler.RunTrace.mk.injEq, true_and]
    refine ⟨by omega, ?_⟩
    exact List.map_congr_left (fun i _ => by simp)
  · intro m v hm1 hm2 hok hfail
    have h := executeGo_success cfg op v cfg.maxAttempts 1 (le_refl 1) m hm1
      (by omega) hok (fun k hk1 hk2 => hfail k hk1 hk2) .undef
    unfold RetryHandler.execute
    rw [h]
    simp only [RetryHandler.RunTrace.mk.injEq, true_and]
    refine ⟨by omega, ?_⟩
    exact List.map_congr_left (fun i _ => by simp)
  · intro efn hfail
    have h := executeGo_exhaust cfg op efn cfg.maxAttempts h1 1 (le_refl 1)
      (fun k hk1 hk2 => hfail k hk1 (by omega)) .undef
    unfold RetryHandler.execute
    rw [h]
    simp only [RetryHandler.RunTrace.mk.injEq, true_and]
    refine ⟨by rw [show 1 + cfg.maxAttempts - 1 = cfg.maxAttempts by omega], ?_⟩
    exact List.map_congr_left (fun i _ => by simp)

/-- C3, witness: with `maxAttempts = 3`, `delayMs = 1000` and
`backoffMultiplier = 2`, an operation failing with a 500 on attempts
1–2 and succeeding on attempt 3 is invoked exactly 3 times, succeeds
overall, and sleeps 1000 ms then 2000 ms; an operation failing with a
404 on attempt 1 is invoked exactly once and the error propagates
unchanged; and an operation failing with a 500 on attempt 1 and a 404
on attempt 2 is invoked exactly twice — the non-retryable 404
propagates immediately after the single 1000 ms backoff. -/
theorem retryHandler_execute_classification_witness :
    RetryHandler.execute { maxAttempts := 3, delayMs := 1000, backoffMultiplier := 2 }
        (fun k => if k < 3 then .error (.err (some 500) "server error") else .ok 42)
      = ⟨.ok 42, 3, [1000, 2000]⟩
  ∧ RetryHandler.execute { maxAttempts := 3, delayMs := 1000, backoffMultiplier := 2 }
        (fun _ => (.error (.err (some 404) "not found") : Except JsError Nat))
      = ⟨.error (.err (some 404) "not found"), 1, []⟩
  ∧ RetryHandler.execute { maxAttempts := 3, delayMs := 1000, backoffMultiplier := 2 }
        (fun k => if k = 1 then (.error (.err (some 500) "server error") : Except JsError Nat)
                  else .error (.err (some 404) "not found"))
      = ⟨.error (.err (some 404) "not found"), 2, [1000]⟩ := by
  refine ⟨?_, ?_, ?_⟩
  · exact (retryHandler_execute_classification
      { maxAttempts := 3, delayMs := 1000, backoffMultiplier := 2 }
      (fun k => if k < 3 then .error (.err (some 500) "server error") else .ok 42)
      (by decide)).2.1 3 42 (by decide) (by decide) rfl
      (fun k hk1 hk3 => ⟨.err (some 500) "server error", by rw [if_pos hk3], rfl⟩)
  · exact (retryHandler_execute_classification
      { maxAttempts := 3, delayMs := 1000, backoffMultiplier := 2 }
      (fun _ => (.error (.err (some 404) "not found") : Except JsError Nat))
      (by decide)).1 1 (.err (some 404) "not found") (by decide) (by decide) rfl rfl
      (fun k hk1 hk2 => absurd hk2 (by omega))
  · exact (retryHandler_execute_classification
      { maxAttempts := 3, delayMs := 1000, backoffMultiplier := 2 }
      (fun k => if k = 1 then (.error (.err (some 500) "server error") : Except JsError Nat)
                else .error (.err (some 404) "not found"))
      (by decide)).1 2 (.err (some 404) "not found") (by decide) (by decide) rfl rfl
      (fun k hk1 hk2 => ⟨.err (some 500) "server error", by
        have hk : k = 1 := by omega
        subst hk
        exact rfl, rfl⟩)

end GDH
